import Mathlib

/-!
# jsau-apiserver: request handlers of `src/app.js`

A shallow embedding of the Express handlers of `src/app.js` and the properties
of the recipe and favorites endpoints.

Modelling conventions.

* A value returned by `JSON.parse` is a `JVal`; `undefined` is `none` in an
  `Option JVal`.  A number is a `JNum`: an integer-valued double, a finite
  double that is not an integer, or an infinity.  `parseInt` rounds the value
  of its digits to the nearest double, ties to even.
* The file system is a `World`: the state of each path below `html_files`, the
  two JSON files, and what `fs.writeFile` on `favorites.json` does.  A JSON
  file is `missing` (`ENOENT`), `unreadable` (any other read failure),
  `invalid` (text that `JSON.parse` rejects) or `json v` (text that parses to
  `v`).  A successful write of `JSON.stringify(v, null, 2)` leaves the file in
  state `json v`.
* A handler maps the world and the request to an `Outcome`: the response and
  the file-system calls made, in order.
* `String.prototype.toLowerCase` is a parameter of the handler that uses it, a
  function on whole strings.  On strings of ASCII characters it is
  `asciiLowerCase`.
* Strings are sequences of Unicode scalar values and paths use `/`.
-/

namespace JsauApi

/-! ## JSON values -/

/-- A JavaScript number other than `NaN`, with `-0` identified with `0`:
`int n` is the double of integer value `n`, `frac q` a finite double that is
not an integer, `posInf` and `negInf` the infinities. -/
inductive JNum where
  | int (n : Int)
  | posInf
  | negInf
  | frac (q : ℚ)
  deriving DecidableEq

/-- A parsed JSON value. -/
inductive JVal where
  | null
  | bool (b : Bool)
  | num (x : JNum)
  | str (s : String)
  | arr (items : List JVal)
  | obj (fields : List (String × JVal))

/-- The errors a handler can catch: `ENOENT`, another I/O failure, the
`SyntaxError` of `JSON.parse`, or a `TypeError`. -/
inductive JsError where
  | enoent
  | ioFailure
  | parseFailure
  | typeError

/-- JavaScript truthiness (`!x` is `!truthy x`); `none` is `undefined`. -/
def truthy : Option JVal → Bool
  | none => false
  | some .null => false
  | some (.bool b) => b
  | some (.num (.int n)) => n != 0
  | some (.num _) => true
  | some (.str s) => s != ""
  | some (.arr _) => true
  | some (.obj _) => true

/-- Property read `v.key` for the property names the handlers use (`id`,
`recette`, `filename`, `recetteFile`): a `TypeError` on `null`, the own
property of an object, `undefined` on every other value. -/
def getProp (v : JVal) (key : String) : Except JsError (Option JVal) :=
  match v with
  | .null => .error .typeError
  | .obj fields => .ok (fields.lookup key)
  | _ => .ok none

/-- Strict equality `a === b` between a property value and a value of another
parse: primitives compare by value, arrays and objects (distinct references)
are never equal. -/
def strictEq : Option JVal → JVal → Bool
  | some .null, .null => true
  | some (.bool a), .bool b => a == b
  | some (.num a), .num b => a == b
  | some (.str a), .str b => a == b
  | _, _ => false

/-- The callback `(x) => x.key === value`. -/
def propIs (key : String) (value : JVal) (x : JVal) : Except JsError Bool :=
  match getProp x key with
  | .error e => .error e
  | .ok p => .ok (strictEq p value)

/-- The method `Array.prototype.find` with a callback that may throw. -/
def find (p : JVal → Except JsError Bool) : List JVal → Except JsError (Option JVal)
  | [] => .ok none
  | x :: xs =>
    match p x with
    | .error e => .error e
    | .ok true => .ok (some x)
    | .ok false => find p xs

/-- The method `Array.prototype.findIndex` with a callback that may throw;
`none` is `-1`. -/
def findIndex (p : JVal → Except JsError Bool) : List JVal → Except JsError (Option Nat)
  | [] => .ok none
  | x :: xs =>
    match p x with
    | .error e => .error e
    | .ok true => .ok (some 0)
    | .ok false =>
      match findIndex p xs with
      | .error e => .error e
      | .ok none => .ok none
      | .ok (some i) => .ok (some (i + 1))

/-- The test `v.length === 0` of `GET /favorites`. -/
def lengthIsZero : JVal → Except JsError Bool
  | .null => .error .typeError
  | .arr items => .ok items.isEmpty
  | .str s => .ok (s == "")
  | .obj fields => .ok (strictEq (fields.lookup "length") (.num (.int 0)))
  | _ => .ok false

/-! ## Numbers from strings -/

/-- The least `e`, counted up from the third argument, with `m / 2 ^ e` below
`2 ^ 53`; the first argument bounds the number of steps. -/
def excessBits : Nat → Nat → Nat → Nat
  | 0, _, e => e
  | fuel + 1, m, e => if m / 2 ^ e < 2 ^ 53 then e else excessBits fuel m (e + 1)

/-- The double nearest to the natural number `m`, ties to even, as a natural
number; `none` when the rounding overflows to `Infinity`. -/
def roundNat (m : Nat) : Option Nat :=
  if m < 2 ^ 53 then some m
  else
    let e := excessBits m m 0
    let q := m / 2 ^ e
    let r := m % 2 ^ e
    let half := 2 ^ (e - 1)
    let up := if half < r ∨ (r = half ∧ q % 2 = 1) then q + 1 else q
    if (if up = 2 ^ 53 then e + 53 else e + 52) < 1024 then some (up * 2 ^ e) else none

/-- The Number value of a mathematical integer with sign `negative` and
magnitude `m`. -/
def toNumber (negative : Bool) (m : Nat) : JNum :=
  match roundNat m with
  | some v => .int (if negative then -(v : Int) else (v : Int))
  | none => if negative then .negInf else .posInf

/-- Code points matched by `\s` and skipped by `parseInt`: ECMAScript
`WhiteSpace` and `LineTerminator`. -/
def isWhiteSpace (c : Char) : Bool :=
  let n := c.toNat
  n == 0x09 || n == 0x0A || n == 0x0B || n == 0x0C || n == 0x0D || n == 0x20 ||
  n == 0xA0 || n == 0x1680 || (0x2000 ≤ n && n ≤ 0x200A) || n == 0x2028 ||
  n == 0x2029 || n == 0x202F || n == 0x205F || n == 0x3000 || n == 0xFEFF

/-- Decimal digit test of `parseInt` with radix 10. -/
def isDigit (c : Char) : Bool :=
  0x30 ≤ c.toNat && c.toNat ≤ 0x39

/-- Value of a digit string in radix 10. -/
def digitsValue (ds : List Char) : Nat :=
  ds.foldl (fun acc c => 10 * acc + (c.toNat - 0x30)) 0

/-- The call `parseInt(s, 10)`: skip leading white space, read an optional sign,
take the longest run of decimal digits, and return the Number value of the
signed digits; `none` is `NaN`. -/
def parseInt (s : String) : Option JNum :=
  let trimmed := s.data.dropWhile isWhiteSpace
  let signed : Bool × List Char :=
    match trimmed with
    | '-' :: rest => (true, rest)
    | '+' :: rest => (false, rest)
    | _ => (false, trimmed)
  let z := signed.2.takeWhile isDigit
  if z.isEmpty then none else some (toNumber signed.1 (digitsValue z))

/-! ## Strings -/

/-- The scan of `s.replace(/\s+/g, '_')`; `inRun` tells that the preceding
character belongs to a white-space match already replaced. -/
def replaceWsFrom : Bool → List Char → List Char
  | _, [] => []
  | inRun, c :: cs =>
    if isWhiteSpace c then
      if inRun then replaceWsFrom true cs else '_' :: replaceWsFrom true cs
    else c :: replaceWsFrom false cs

/-- The call `s.replace(/\s+/g, '_')` on a list of characters. -/
def replaceWs (cs : List Char) : List Char :=
  replaceWsFrom false cs

/-- The template `${recette.recette.replace(/\s+/g, '_').toLowerCase()}.html`,
given the function `toLowerCase`. -/
def htmlName (toLowerCase : List Char → List Char) (recette : String) : String :=
  String.mk (toLowerCase (replaceWs recette.data)) ++ ".html"

/-- An ASCII character. -/
def isAscii (c : Char) : Bool :=
  c.toNat < 0x80

/-- An ASCII uppercase letter. -/
def isAsciiUpper (c : Char) : Bool :=
  0x41 ≤ c.toNat && c.toNat ≤ 0x5A

/-- Lowercasing of one ASCII character: `A`..`Z` map to `a`..`z`, every other
character is unchanged. -/
def asciiLower (c : Char) : Char :=
  if 0x41 ≤ c.toNat ∧ c.toNat ≤ 0x5A then Char.ofNat (c.toNat + 0x20) else c

/-- What `String.prototype.toLowerCase` does on a string of ASCII characters. -/
def asciiLowerCase (cs : List Char) : List Char :=
  cs.map asciiLower

/-- The file name of a path: what follows its last `/`. -/
def fileName (path : String) : List Char :=
  (path.data.reverse.takeWhile (fun c => c != '/')).reverse

/-- The dot-file test the `send` module applies with Express's default options
to a path ending in a file name: the file name has more than one character and
begins with a dot. -/
def isDotFile (path : String) : Bool :=
  match fileName path with
  | c :: _ :: _ => c == '.'
  | _ => false

/-! ## File system, responses, outcomes -/

/-- State of a JSON file on disk. -/
inductive FileState where
  | missing
  | unreadable
  | invalid
  | json (v : JVal)

/-- State of a path below `html_files`: `missing` makes `fs.access` reject with
`ENOENT`, `blocked` makes it reject with another error, `present refusal` makes
it resolve. For a present path, `refusal = none` when `send` streams it (a
readable regular file) and `refusal = some status` when `send` refuses it (a
directory, an unreadable file, a path it rejects) and Express answers with
`status`. -/
inductive PathState where
  | missing
  | blocked
  | present (refusal : Option Nat)

/-- What `fs.writeFile(favoritesJson, ...)` does: it succeeds, or it rejects
with `ENOENT`, or it rejects with another error leaving the file in state
`left`. -/
inductive WriteResult where
  | ok
  | enoent
  | failure (left : FileState)

/-- The files the handlers touch: the paths below `html_files`, the files
`recettes.json` and `favorites.json`, and the result of writing the latter. -/
structure World where
  html : String → PathState
  recettes : FileState
  favorites : FileState
  write : WriteResult

/-- The result of `fs.access(join(htmlDirectory, path))`, as a path state: a
path holding a NUL character is rejected before the file system is asked. -/
def pathState (w : World) (path : String) : PathState :=
  if path.data.any (fun c => c.toNat == 0) then .blocked else w.html path

/-- A file-system call made by a handler; `writeFailed left` is a rejected
`fs.writeFile` that left the favorites file in state `left`. -/
inductive Effect where
  | accessHtml (path : String)
  | readRecettes
  | readFavorites
  | writeFavorites (v : JVal)
  | writeFailed (left : FileState)

/-- An HTTP response: `res.status(n).send(text)`, `res.status(n).json(body)`,
a file streamed by `res.sendFile(path)` or by `res.download(path)` (paths below
`html_files`), or `refused status`: `send` refused the file and Express itself
answered with `status`. -/
inductive Response where
  | send (status : Nat) (text : String)
  | json (status : Nat) (body : JVal)
  | sendFile (path : String)
  | download (path : String)
  | refused (status : Nat)

/-- What a handler did: its response and its file-system calls in order. -/
structure Outcome where
  response : Response
  effects : List Effect

/-- The value of the last successful `fs.writeFile(favoritesJson, ...)` among
effects. -/
def lastWrite : List Effect → Option JVal
  | [] => none
  | .writeFavorites v :: es =>
    match lastWrite es with
    | some w => some w
    | none => some v
  | _ :: es => lastWrite es

/-- The value a handler wrote to `favorites.json`, if a write succeeded. -/
def Outcome.written (o : Outcome) : Option JVal :=
  lastWrite o.effects

/-- The favorites file after the effects, in order. -/
def applyEffects (f : FileState) : List Effect → FileState
  | [] => f
  | .writeFavorites v :: es => applyEffects (.json v) es
  | .writeFailed left :: es => applyEffects left es
  | _ :: es => applyEffects f es

/-- The world after a handler ran. -/
def World.after (w : World) (o : Outcome) : World :=
  { w with favorites := applyEffects w.favorites o.effects }

/-- Status code of a response, for a file streamed in full. -/
def Response.status : Response → Nat
  | .send status _ => status
  | .json status _ => status
  | .sendFile _ => 200
  | .download _ => 200
  | .refused status => status

/-- The body `{ error: text }`. -/
def errorBody (text : String) : JVal :=
  .obj [("error", .str text)]

/-- The body `{ message: text }`. -/
def messageBody (text : String) : JVal :=
  .obj [("message", .str text)]

/-! ## Handlers -/

/-- Handler `app.get('/info')`. -/
def getInfo : Outcome :=
  ⟨.send 200 "jsau-apiserver-1.0.0", []⟩

/-- The branch of `app.get('/search')` taken when `!recetteparam`. -/
def listRecettes (w : World) : Outcome :=
  match w.recettes with
  | .json recettes => ⟨.json 200 recettes, [.readRecettes]⟩
  | .missing => ⟨.json 200 (.arr []), [.readRecettes]⟩
  | _ => ⟨.json 500 (errorBody "Error parsing JSON data."), [.readRecettes]⟩

/-- What `send` makes of a path for which `fs.access` resolved, called without
callback through `res.sendFile` or `res.download`: a dot-file is refused with
404; otherwise the file is streamed (`streamed` is the response then) unless
the world has `send` refuse it. -/
def deliver (path : String) (refusal : Option Nat) (streamed : Response) : Response :=
  if isDotFile path then .refused 404
  else
    match refusal with
    | none => streamed
    | some status => .refused status

/-- Handler `app.get('/search')`; `recetteparam` is `req.query.recette`, a
string or `undefined`. -/
def getSearch (w : World) (recetteparam : Option String) : Outcome :=
  match recetteparam with
  | none => listRecettes w
  | some name =>
    if !truthy (some (.str name)) then listRecettes w
    else
      match pathState w (name ++ ".html") with
      | .present refusal =>
        ⟨deliver (name ++ ".html") refusal (.sendFile (name ++ ".html")),
          [.accessHtml (name ++ ".html")]⟩
      | _ => ⟨.send 404 "File not Found", [.accessHtml (name ++ ".html")]⟩

/-- The part of `app.get('/recette/:id')` after a record was found: derive the
file name from `recette.recette`, test it with `fs.access` and hand it to
`res.download`. -/
def serveRecette (toLowerCase : List Char → List Char) (w : World) (recette : JVal) :
    Outcome :=
  match getProp recette "recette" with
  | .ok (some (.str name)) =>
    match pathState w (htmlName toLowerCase name) with
    | .present refusal =>
      ⟨deliver (htmlName toLowerCase name) refusal (.download (htmlName toLowerCase name)),
        [.readRecettes, .accessHtml (htmlName toLowerCase name)]⟩
    | _ =>
      ⟨.send 404 "HTML file not found for the provided document.",
        [.readRecettes, .accessHtml (htmlName toLowerCase name)]⟩
  | _ => ⟨.send 500 "Internal server error.", [.readRecettes]⟩

/-- The part of `app.get('/recette/:id')` after `parseInt` gave `recetteId`. -/
def recetteById (toLowerCase : List Char → List Char) (w : World) (recetteId : JNum) :
    Outcome :=
  match w.recettes with
  | .json (.arr recettes) =>
    match find (propIs "id" (.num recetteId)) recettes with
    | .error _ => ⟨.send 500 "Internal server error.", [.readRecettes]⟩
    | .ok none => ⟨.send 404 "Document not found.", [.readRecettes]⟩
    | .ok (some recette) =>
      if !truthy (some recette) then ⟨.send 404 "Document not found.", [.readRecettes]⟩
      else serveRecette toLowerCase w recette
  | _ => ⟨.send 500 "Internal server error.", [.readRecettes]⟩

/-- Handler `app.get('/recette/:id')`; `id` is `req.params.id`. -/
def getRecette (toLowerCase : List Char → List Char) (w : World) (id : String) : Outcome :=
  match parseInt id with
  | none => ⟨.send 400 "Invalid recette ID.", []⟩
  | some recetteId => recetteById toLowerCase w recetteId

/-- The record `{ id: favorites.length + 1, recetteFile }`. -/
def newFavorite (favorites : List JVal) (recetteFile : String) : JVal :=
  .obj [("id", .num (.int ((favorites.length : Int) + 1))), ("recetteFile", .str recetteFile)]

/-- The end of the `try` block of `app.post('/favorites')`: write the array
`favorites` and answer, a rejected write going to the `catch` block. -/
def saveAdded (w : World) (name : String) (favorites : List JVal) : Outcome :=
  match w.write with
  | .ok =>
    ⟨.json 201 (messageBody "Favorite added successfully!"),
      [.accessHtml name, .readFavorites, .writeFavorites (.arr favorites)]⟩
  | .enoent =>
    ⟨.json 404 (errorBody "File does not exist."),
      [.accessHtml name, .readFavorites, .writeFailed .missing]⟩
  | .failure left =>
    ⟨.json 500 (errorBody "An error occurred while processing the request."),
      [.accessHtml name, .readFavorites, .writeFailed left]⟩

/-- The `try` block of `app.post('/favorites')` for a string `recetteFile`. -/
def addFavorite (w : World) (name : String) : Outcome :=
  match pathState w name with
  | .missing => ⟨.json 404 (errorBody "File does not exist."), [.accessHtml name]⟩
  | .blocked =>
    ⟨.json 500 (errorBody "An error occurred while processing the request."),
      [.accessHtml name]⟩
  | .present _ =>
    match w.favorites with
    | .missing =>
      ⟨.json 404 (errorBody "File does not exist."), [.accessHtml name, .readFavorites]⟩
    | .unreadable =>
      ⟨.json 500 (errorBody "An error occurred while processing the request."),
        [.accessHtml name, .readFavorites]⟩
    | .invalid =>
      ⟨.json 500 (errorBody "Error parsing favorites data."),
        [.accessHtml name, .readFavorites]⟩
    | .json (.arr favorites) =>
      match find (propIs "filename" (.str name)) favorites with
      | .error _ =>
        ⟨.json 500 (errorBody "An error occurred while processing the request."),
          [.accessHtml name, .readFavorites]⟩
      | .ok (some _) =>
        ⟨.json 409 (errorBody "This favorite already exists."),
          [.accessHtml name, .readFavorites]⟩
      | .ok none => saveAdded w name (favorites ++ [newFavorite favorites name])
    | .json _ =>
      ⟨.json 500 (errorBody "An error occurred while processing the request."),
        [.accessHtml name, .readFavorites]⟩

/-- Handler `app.post('/favorites')`; `recetteFile` is `req.body.recetteFile`.
A truthy value that is not a string makes `path.join` throw a `TypeError`. -/
def postFavorites (w : World) (recetteFile : Option JVal) : Outcome :=
  if !truthy recetteFile then ⟨.json 400 (errorBody "Filename is required."), []⟩
  else
    match recetteFile with
    | some (.str name) => addFavorite w name
    | _ => ⟨.json 500 (errorBody "An error occurred while processing the request."), []⟩

/-- Handler `app.get('/favorites')`. -/
def getFavorites (w : World) : Outcome :=
  match w.favorites with
  | .missing =>
    ⟨.json 500 (errorBody "An error occurred while retrieving favorites."), [.readFavorites]⟩
  | .unreadable =>
    ⟨.json 500 (errorBody "An error occurred while retrieving favorites."), [.readFavorites]⟩
  | .invalid => ⟨.json 500 (errorBody "Error parsing favorites data."), [.readFavorites]⟩
  | .json favorites =>
    match lengthIsZero favorites with
    | .error _ =>
      ⟨.json 500 (errorBody "An error occurred while retrieving favorites."), [.readFavorites]⟩
    | .ok true => ⟨.json 404 (messageBody "No favorites found."), [.readFavorites]⟩
    | .ok false => ⟨.json 200 favorites, [.readFavorites]⟩

/-- The end of the `try` block of `app.delete('/favorites')`: write the array
`favorites` and answer, a rejected write going to the `catch` block. -/
def saveRemoved (w : World) (favorites : List JVal) : Outcome :=
  match w.write with
  | .ok =>
    ⟨.json 200 (messageBody "Favorite deleted successfully."),
      [.readFavorites, .writeFavorites (.arr favorites)]⟩
  | .enoent =>
    ⟨.json 500 (errorBody "An error occurred while deleting the favorite."),
      [.readFavorites, .writeFailed .missing]⟩
  | .failure left =>
    ⟨.json 500 (errorBody "An error occurred while deleting the favorite."),
      [.readFavorites, .writeFailed left]⟩

/-- The `try` block of `app.delete('/favorites')` for a truthy `filename`. -/
def removeFavorite (w : World) (filename : JVal) : Outcome :=
  match w.favorites with
  | .missing =>
    ⟨.json 500 (errorBody "An error occurred while deleting the favorite."), [.readFavorites]⟩
  | .unreadable =>
    ⟨.json 500 (errorBody "An error occurred while deleting the favorite."), [.readFavorites]⟩
  | .invalid => ⟨.json 500 (errorBody "Error parsing favorites data."), [.readFavorites]⟩
  | .json (.arr favorites) =>
    match findIndex (propIs "recetteFile" filename) favorites with
    | .error _ =>
      ⟨.json 500 (errorBody "An error occurred while deleting the favorite."),
        [.readFavorites]⟩
    | .ok none => ⟨.json 404 (errorBody "Favorite not found."), [.readFavorites]⟩
    | .ok (some index) => saveRemoved w (favorites.eraseIdx index)
  | .json _ =>
    ⟨.json 500 (errorBody "An error occurred while deleting the favorite."), [.readFavorites]⟩

/-- Handler `app.delete('/favorites')`; `filename` is `req.body.filename`. -/
def deleteFavorites (w : World) (filename : Option JVal) : Outcome :=
  match filename with
  | none => ⟨.json 400 (errorBody "Filename is required."), []⟩
  | some key =>
    if !truthy (some key) then ⟨.json 400 (errorBody "Filename is required."), []⟩
    else removeFavorite w key

/-! ## Sequences of requests -/

/-- A request to one of the two mutating favorites endpoints, with the body
field the handler reads. -/
inductive Request where
  | postFavorite (recetteFile : Option JVal)
  | deleteFavorite (filename : Option JVal)

/-- Dispatch of a request to its handler. -/
def handle (w : World) : Request → Outcome
  | .postFavorite recetteFile => postFavorites w recetteFile
  | .deleteFavorite filename => deleteFavorites w filename

/-- Requests served one after the other: the responses, and the final world. -/
def serveAll (w : World) : List Request → List Response × World
  | [] => ([], w)
  | r :: rs =>
    let o := handle w r
    let rest := serveAll (w.after o) rs
    (o.response :: rest.1, rest.2)

/-- A world whose favorites file holds `[]`, where every document exists as a
regular file and writes succeed. -/
def emptyFavorites : World :=
  ⟨fun _ => .present none, .json (.arr []), .json (.arr []), .ok⟩

/-! ## Reference behaviour stated by the specification -/

/-- Spec side: the record `r` has a `recetteFile` field equal to `name`. -/
def hasRecetteFile (name : String) (r : JVal) : Bool :=
  match r with
  | .obj fields =>
    match fields.lookup "recetteFile" with
    | some (.str s) => s == name
    | _ => false
  | _ => false

/-- Spec side: the reference for `DELETE /favorites` on the array `F`, as the
response and the array written back, if any. With no record whose
`recetteFile` is `name`: 404 and no write. Otherwise: 200, and `F` without the
first such record. -/
def deleteReference (F : List JVal) (name : String) : Response × Option JVal :=
  if F.any (hasRecetteFile name) then
    (.json 200 (messageBody "Favorite deleted successfully."),
      some (.arr (F.eraseP (hasRecetteFile name))))
  else (.json 404 (errorBody "Favorite not found."), none)

/-- Spec side: after skipping leading white space and an optional sign, the
string begins with a decimal digit. -/
def beginsWithDigits (id : String) : Bool :=
  let afterSpace := id.data.dropWhile isWhiteSpace
  let afterSign :=
    match afterSpace with
    | '+' :: rest => rest
    | '-' :: rest => rest
    | _ => afterSpace
  match afterSign with
  | d :: _ => isDigit d
  | [] => false

/-- Spec side: the record `r` has an `id` field equal to the number `x`. -/
def hasId (x : JNum) (r : JVal) : Bool :=
  match r with
  | .obj fields =>
    match fields.lookup "id" with
    | some (.num y) => y == x
    | _ => false
  | _ => false

/-- Spec side: each maximal run of white space replaced by one underscore. A
white-space character followed by another one is dropped, the last one of a
run becomes the underscore, every other character is kept. -/
def underscoreRuns : List Char → List Char
  | [] => []
  | c :: cs =>
    if isWhiteSpace c then
      match cs with
      | [] => ['_']
      | d :: _ => if isWhiteSpace d then underscoreRuns cs else '_' :: underscoreRuns cs
    else c :: underscoreRuns cs

/-! ## Lemmas on `parseInt` -/

theorem takeWhile_isEmpty_iff (p : Char → Bool) (u : List Char) :
    (u.takeWhile p).isEmpty = true ↔
      (match u with
        | d :: _ => p d
        | [] => false) = false := by
  cases u with
  | nil => simp
  | cons d ds => cases h : p d <;> simp [List.takeWhile, h]

theorem signed_snd (t : List Char) :
    (match t with
      | '-' :: rest => (true, rest)
      | '+' :: rest => (false, rest)
      | _ => (false, t)).2 =
    (match t with
      | '+' :: rest => rest
      | '-' :: rest => rest
      | _ => t) := by
  split <;> split <;> simp_all

theorem parseInt_eq_none_iff (id : String) :
    parseInt id = none ↔ beginsWithDigits id = false := by
  unfold parseInt beginsWithDigits
  simp only [signed_snd]
  rw [← takeWhile_isEmpty_iff]
  split <;> simp_all

theorem isDigit_not_space (c : Char) (h : isDigit c = true) : isWhiteSpace c = false := by
  simp only [isDigit, Bool.and_eq_true, decide_eq_true_eq] at h
  simp only [isWhiteSpace, Bool.or_eq_false_iff, beq_eq_false_iff_ne, Bool.and_eq_false_iff,
    decide_eq_false_iff_not]
  omega

theorem dropWhile_space_append (ws tl : List Char) (c : Char)
    (hws : ∀ x ∈ ws, isWhiteSpace x = true) (hc : isWhiteSpace c = false) :
    (ws ++ c :: tl).dropWhile isWhiteSpace = c :: tl := by
  induction ws with
  | nil => simp [List.dropWhile, hc]
  | cons x xs ih =>
    have hx := hws x (List.mem_cons_self x xs)
    simp only [List.cons_append, List.dropWhile, hx]
    exact ih (fun y hy => hws y (List.mem_cons_of_mem x hy))

theorem takeWhile_digits_append (ds rest : List Char)
    (hds : ∀ x ∈ ds, isDigit x = true) (hrest : ∀ c, rest.head? = some c → isDigit c = false) :
    (ds ++ rest).takeWhile isDigit = ds := by
  induction ds with
  | nil =>
    cases rest with
    | nil => rfl
    | cons c cs => simp [List.takeWhile, hrest c rfl]
  | cons x xs ih =>
    have hx := hds x (List.mem_cons_self x xs)
    simp [List.takeWhile, hx, ih (fun y hy => hds y (List.mem_cons_of_mem x hy))]

theorem signed_digit (d : Char) (tl : List Char) (hm : d ≠ '-') (hp : d ≠ '+') :
    (match d :: tl with
      | '-' :: rest => (true, rest)
      | '+' :: rest => (false, rest)
      | _ => (false, d :: tl)) = (false, d :: tl) := by
  split <;> simp_all

theorem parseInt_digits (ws ds rest : List Char) (sg : List Char) (negative : Bool)
    (hws : ∀ x ∈ ws, isWhiteSpace x = true)
    (hsg : (sg = [] ∧ negative = false) ∨ (sg = ['+'] ∧ negative = false) ∨
      (sg = ['-'] ∧ negative = true))
    (hne : ds ≠ []) (hds : ∀ x ∈ ds, isDigit x = true)
    (hrest : ∀ c, rest.head? = some c → isDigit c = false) :
    parseInt (String.mk (ws ++ sg ++ ds ++ rest)) = some (toNumber negative (digitsValue ds)) := by
  have htake := takeWhile_digits_append ds rest hds hrest
  have hemp : ds.isEmpty = false := by
    cases ds with
    | nil => exact absurd rfl hne
    | cons d tl => rfl
  rcases hsg with ⟨h1, h2⟩ | ⟨h1, h2⟩ | ⟨h1, h2⟩ <;> subst h1 <;> subst h2
  · cases ds with
    | nil => exact absurd rfl hne
    | cons d tl =>
      have hd : isDigit d = true := hds d (List.mem_cons_self d tl)
      have hdm : d ≠ '-' := by
        intro h; subst h; simp [isDigit] at hd
      have hdp : d ≠ '+' := by
        intro h; subst h; simp [isDigit] at hd
      have hdrop : (ws ++ d :: (tl ++ rest)).dropWhile isWhiteSpace = d :: (tl ++ rest) :=
        dropWhile_space_append ws (tl ++ rest) d hws (isDigit_not_space d hd)
      have hsign := signed_digit d (tl ++ rest) hdm hdp
      have htake2 : (d :: (tl ++ rest)).takeWhile isDigit = d :: tl := by
        simpa using htake
      unfold parseInt
      simp only [List.append_nil, List.append_assoc, List.cons_append, hdrop, hsign, htake2]
      simp
  · have hdrop : (ws ++ '+' :: (ds ++ rest)).dropWhile isWhiteSpace = '+' :: (ds ++ rest) :=
      dropWhile_space_append ws (ds ++ rest) '+' hws (by decide)
    unfold parseInt
    simp [hdrop, htake, hemp]
  · have hdrop : (ws ++ '-' :: (ds ++ rest)).dropWhile isWhiteSpace = '-' :: (ds ++ rest) :=
      dropWhile_space_append ws (ds ++ rest) '-' hws (by decide)
    unfold parseInt
    simp [hdrop, htake, hemp]

theorem toNumber_exact (negative : Bool) (m : Nat) (h : m < 2 ^ 53) :
    toNumber negative m = .int (if negative then -(m : Int) else (m : Int)) := by
  have hr : roundNat m = some m := by
    unfold roundNat
    rw [if_pos h]
  simp [toNumber, hr]

theorem deliver_ne_send (path : String) (refusal : Option Nat) (p : String)
    (status : Nat) (text : String) :
    deliver path refusal (.download p) ≠ .send status text := by
  unfold deliver
  split
  · simp
  · split <;> simp

theorem serveRecette_ne (toLowerCase : List Char → List Char) (w : World) (r : JVal)
    (text : String) (h1 : text ≠ "HTML file not found for the provided document.")
    (h2 : text ≠ "Internal server error.") (status : Nat) :
    (serveRecette toLowerCase w r).response ≠ .send status text := by
  unfold serveRecette
  split
  · split
    · exact deliver_ne_send _ _ _ _ _
    · simp [Ne.symm h1]
  · simp [Ne.symm h2]

theorem recetteById_ne_400 (toLowerCase : List Char → List Char) (w : World) (x : JNum) :
    (recetteById toLowerCase w x).response ≠ .send 400 "Invalid recette ID." := by
  unfold recetteById
  split
  · split
    · simp
    · simp
    · split
      · simp
      · exact serveRecette_ne toLowerCase w _ _ (by decide) (by decide) 400
  · simp

/-! ## Lemmas on the array scans -/

theorem strictEq_str_iff (p : Option JVal) (s : String) :
    strictEq p (.str s) = true ↔ p = some (.str s) := by
  cases p with
  | none => simp [strictEq]
  | some v => cases v <;> simp [strictEq]

theorem find_of_all_false (p : JVal → Except JsError Bool) (F : List JVal)
    (h : ∀ r ∈ F, p r = .ok false) : find p F = .ok none := by
  induction F with
  | nil => rfl
  | cons x xs ih =>
    have hx := h x (List.mem_cons_self x xs)
    simp only [find, hx]
    exact ih (fun r hr => h r (List.mem_cons_of_mem x hr))

theorem propIs_recetteFile (name : String) (r : JVal) (hr : r ≠ .null) :
    propIs "recetteFile" (.str name) r = .ok (hasRecetteFile name r) := by
  cases r with
  | null => exact absurd rfl hr
  | obj fields =>
    simp only [propIs, getProp, hasRecetteFile]
    cases h : fields.lookup "recetteFile" with
    | none => simp [strictEq]
    | some v => cases v <;> simp [strictEq]
  | _ => rfl

theorem findIndex_clean (name : String) (F : List JVal)
    (h : ∀ r ∈ F.takeWhile (fun r => !hasRecetteFile name r), r ≠ .null) :
    (findIndex (propIs "recetteFile" (.str name)) F = .ok none ∧
        F.any (hasRecetteFile name) = false) ∨
    (∃ i, findIndex (propIs "recetteFile" (.str name)) F = .ok (some i) ∧
        F.any (hasRecetteFile name) = true ∧
        F.eraseIdx i = F.eraseP (hasRecetteFile name)) := by
  induction F with
  | nil => exact Or.inl ⟨rfl, rfl⟩
  | cons x xs ih =>
    cases hq : hasRecetteFile name x with
    | true =>
      have hx : x ≠ .null := by
        intro hn
        subst hn
        simp [hasRecetteFile] at hq
      refine Or.inr ⟨0, ?_, ?_, ?_⟩
      · simp [findIndex, propIs_recetteFile name x hx, hq]
      · simp [hq]
      · simp [List.eraseP, hq]
    | false =>
      have hx : x ≠ .null := h x (by simp [List.takeWhile, hq])
      have hxs : ∀ r ∈ xs.takeWhile (fun r => !hasRecetteFile name r), r ≠ .null := by
        intro r hr
        exact h r (by simp [List.takeWhile, hq, hr])
      rcases ih hxs with ⟨h1, h2⟩ | ⟨i, h1, h2, h3⟩
      · left
        refine ⟨?_, ?_⟩
        · simp [findIndex, propIs_recetteFile name x hx, hq, h1]
        · simp [hq, h2]
      · right
        refine ⟨i + 1, ?_, ?_, ?_⟩
        · simp [findIndex, propIs_recetteFile name x hx, hq, h1]
        · simp [hq, h2]
        · simp [List.eraseP, hq, h3]

theorem findIndex_throws (name : String) (F : List JVal)
    (h : ∃ r ∈ F.takeWhile (fun r => !hasRecetteFile name r), r = .null) :
    ∃ e, findIndex (propIs "recetteFile" (.str name)) F = .error e := by
  induction F with
  | nil => simp at h
  | cons x xs ih =>
    cases hq : hasRecetteFile name x with
    | true => simp [List.takeWhile, hq] at h
    | false =>
      by_cases hx : x = .null
      · subst hx
        exact ⟨.typeError, rfl⟩
      · have hxs : ∃ r ∈ xs.takeWhile (fun r => !hasRecetteFile name r), r = .null := by
          simp only [List.takeWhile, hq, Bool.not_false] at h
          rcases h with ⟨r, hr, hn⟩
          rcases List.mem_cons.mp hr with hr | hr
          · exact absurd (hr ▸ hn) hx
          · exact ⟨r, hr, hn⟩
        rcases ih hxs with ⟨e, he⟩
        exact ⟨e, by simp [findIndex, propIs_recetteFile name x hx, hq, he]⟩

theorem propIs_id (x : JNum) (r : JVal) (hr : r ≠ .null) :
    propIs "id" (.num x) r = .ok (hasId x r) := by
  cases r with
  | null => exact absurd rfl hr
  | obj fields =>
    simp only [propIs, getProp, hasId]
    cases h : fields.lookup "id" with
    | none => simp [strictEq]
    | some v => cases v <;> simp [strictEq]
  | _ => rfl

theorem hasId_truthy (x : JNum) (r : JVal) (h : hasId x r = true) : truthy (some r) = true := by
  cases r <;> simp_all [hasId, truthy]

theorem find_clean (x : JNum) (F : List JVal)
    (h : ∀ r ∈ F.takeWhile (fun r => !hasId x r), r ≠ .null) :
    find (propIs "id" (.num x)) F = .ok (F.find? (hasId x)) := by
  induction F with
  | nil => rfl
  | cons y ys ih =>
    cases hq : hasId x y with
    | true =>
      have hy : y ≠ .null := by
        intro hn
        subst hn
        simp [hasId] at hq
      simp [find, propIs_id x y hy, hq, List.find?]
    | false =>
      have hy : y ≠ .null := h y (by simp [List.takeWhile, hq])
      have hys : ∀ r ∈ ys.takeWhile (fun r => !hasId x r), r ≠ .null := by
        intro r hr
        exact h r (by simp [List.takeWhile, hq, hr])
      simp [find, propIs_id x y hy, hq, List.find?, ih hys]

theorem find_throws (x : JNum) (F : List JVal)
    (h : ∃ r ∈ F.takeWhile (fun r => !hasId x r), r = .null) :
    ∃ e, find (propIs "id" (.num x)) F = .error e := by
  induction F with
  | nil => simp at h
  | cons y ys ih =>
    cases hq : hasId x y with
    | true => simp [List.takeWhile, hq] at h
    | false =>
      by_cases hy : y = .null
      · subst hy
        exact ⟨.typeError, rfl⟩
      · have hys : ∃ r ∈ ys.takeWhile (fun r => !hasId x r), r = .null := by
          simp only [List.takeWhile, hq, Bool.not_false] at h
          rcases h with ⟨r, hr, hn⟩
          rcases List.mem_cons.mp hr with hr | hr
          · exact absurd (hr ▸ hn) hy
          · exact ⟨r, hr, hn⟩
        rcases ih hys with ⟨e, he⟩
        exact ⟨e, by simp [find, propIs_id x y hy, hq, he]⟩

theorem find_append_of_none (p : JVal → Except JsError Bool) (F G : List JVal)
    (h : find p F = .ok none) : find p (F ++ G) = find p G := by
  induction F with
  | nil => rfl
  | cons x xs ih =>
    simp only [find] at h
    simp only [List.cons_append, find]
    cases hx : p x with
    | error e => simp [hx] at h
    | ok b =>
      cases b with
      | true => simp [hx] at h
      | false =>
        simp only [hx] at h
        exact ih h

theorem newFavorite_has_no_filename (F : List JVal) (name value : String) :
    propIs "filename" (.str value) (newFavorite F name) = .ok false := by
  simp [propIs, getProp, newFavorite, List.lookup, strictEq]

/-! ## Lemmas on the derived file name -/

theorem underscoreRuns_space_space (c d : Char) (ds : List Char)
    (h : isWhiteSpace c = true) (hd : isWhiteSpace d = true) :
    underscoreRuns (c :: d :: ds) = underscoreRuns (d :: ds) := by
  rw [underscoreRuns]
  simp [h, hd]

theorem underscoreRuns_space_other (c d : Char) (ds : List Char)
    (h : isWhiteSpace c = true) (hd : isWhiteSpace d = false) :
    underscoreRuns (c :: d :: ds) = '_' :: underscoreRuns (d :: ds) := by
  rw [underscoreRuns]
  simp [h, hd]

theorem replaceWs_eq_underscoreRuns (cs : List Char) : replaceWs cs = underscoreRuns cs := by
  unfold replaceWs
  induction cs with
  | nil => rfl
  | cons c cs ih =>
    cases h : isWhiteSpace c with
    | false => simp [replaceWsFrom, underscoreRuns, h, ih]
    | true =>
      cases cs with
      | nil => simp [replaceWsFrom, underscoreRuns, h]
      | cons d ds =>
        cases hd : isWhiteSpace d with
        | true =>
          rw [underscoreRuns_space_space c d ds h hd, ← ih]
          simp [replaceWsFrom, h, hd]
        | false =>
          rw [underscoreRuns_space_other c d ds h hd, ← ih]
          simp [replaceWsFrom, h, hd]

theorem replaceWsFrom_map (lower : Char → Char)
    (hspace : ∀ c, isWhiteSpace (lower c) = isWhiteSpace c) (hunder : lower '_' = '_')
    (b : Bool) (cs : List Char) :
    (replaceWsFrom b cs).map lower = replaceWsFrom b (cs.map lower) := by
  induction cs generalizing b with
  | nil => rfl
  | cons c cs ih =>
    cases h : isWhiteSpace c with
    | true => cases b <;> simp [replaceWsFrom, hspace, h, hunder, ih]
    | false => simp [replaceWsFrom, hspace, h, ih]

theorem replaceWsFrom_keeps (P : Char → Prop) (hunder : P '_') (b : Bool) (cs : List Char)
    (hcs : ∀ c ∈ cs, P c) : ∀ c ∈ replaceWsFrom b cs, P c ∧ isWhiteSpace c = false := by
  induction cs generalizing b with
  | nil => simp [replaceWsFrom]
  | cons x xs ih =>
    have hxs : ∀ c ∈ xs, P c := fun c hc => hcs c (List.mem_cons_of_mem x hc)
    intro c hc
    cases h : isWhiteSpace x with
    | true =>
      cases b with
      | true =>
        simp only [replaceWsFrom, h, if_true] at hc
        exact ih true hxs c hc
      | false =>
        simp only [replaceWsFrom, h, if_true, Bool.false_eq_true, if_false,
          List.mem_cons] at hc
        rcases hc with hc | hc
        · subst hc
          exact ⟨hunder, by decide⟩
        · exact ih true hxs c hc
    | false =>
      simp only [replaceWsFrom, h, Bool.false_eq_true, if_false, List.mem_cons] at hc
      rcases hc with hc | hc
      · subst hc
        exact ⟨hcs c (List.mem_cons_self c xs), h⟩
      · exact ih false hxs c hc

theorem asciiLower_toNat (c : Char) (h : 0x41 ≤ c.toNat ∧ c.toNat ≤ 0x5A) :
    (asciiLower c).toNat = c.toNat + 0x20 := by
  obtain ⟨h1, h2⟩ := h
  have hc : asciiLower c = Char.ofNat (c.toNat + 0x20) := by
    simp [asciiLower, h1, h2]
  rw [hc]
  generalize c.toNat = n at h1 h2
  interval_cases n <;> rfl

theorem asciiLower_space (c : Char) : isWhiteSpace (asciiLower c) = isWhiteSpace c := by
  by_cases h : 0x41 ≤ c.toNat ∧ c.toNat ≤ 0x5A
  · have hn := asciiLower_toNat c h
    obtain ⟨h1, h2⟩ := h
    have ha : isWhiteSpace (asciiLower c) = false := by
      simp only [isWhiteSpace, hn, Bool.or_eq_false_iff, beq_eq_false_iff_ne,
        Bool.and_eq_false_iff, decide_eq_false_iff_not]
      omega
    have hb : isWhiteSpace c = false := by
      simp only [isWhiteSpace, Bool.or_eq_false_iff, beq_eq_false_iff_ne,
        Bool.and_eq_false_iff, decide_eq_false_iff_not]
      omega
    rw [ha, hb]
  · simp [asciiLower, h]

theorem asciiLower_not_upper (c : Char) : isAsciiUpper (asciiLower c) = false := by
  by_cases h : 0x41 ≤ c.toNat ∧ c.toNat ≤ 0x5A
  · have hn := asciiLower_toNat c h
    simp only [isAsciiUpper, hn, Bool.and_eq_false_iff, decide_eq_false_iff_not]
    omega
  · have hc : asciiLower c = c := by simp [asciiLower, h]
    rw [hc]
    simp only [isAsciiUpper, Bool.and_eq_false_iff, decide_eq_false_iff_not]
    omega

/-! ## Properties -/

/-- C4. `POST /favorites` answers 400 `{error: 'Filename is required.'}` when
`recetteFile` is missing or empty, and `DELETE /favorites` answers the same
when `filename` is missing or empty, in every world and without any
file-system call. -/
theorem missing_filename_rejected (w : World) (field : Option JVal)
    (h : field = none ∨ field = some (.str "")) :
    postFavorites w field = ⟨.json 400 (errorBody "Filename is required."), []⟩ ∧
    deleteFavorites w field = ⟨.json 400 (errorBody "Filename is required."), []⟩ := by
  rcases h with h | h <;> subst h <;> exact ⟨rfl, rfl⟩

/-- C4 at the empty body of the tests, against an unreadable favorites file. -/
theorem missing_filename_rejected_witness :
    postFavorites ⟨fun _ => .missing, .missing, .unreadable, .enoent⟩ none
      = ⟨.json 400 (errorBody "Filename is required."), []⟩ ∧
    deleteFavorites ⟨fun _ => .missing, .missing, .unreadable, .enoent⟩ none
      = ⟨.json 400 (errorBody "Filename is required."), []⟩ :=
  missing_filename_rejected ⟨fun _ => .missing, .missing, .unreadable, .enoent⟩ none (Or.inl rfl)

/-- C8. On a favorites file holding the array `F`, `GET /favorites` answers
404 `{message: 'No favorites found.'}` exactly when `F` is empty and otherwise
200 with body `F`; in no world does it write the favorites file. -/
theorem get_favorites_lists (html : String → PathState) (recettes : FileState)
    (write : WriteResult) (F : List JVal) :
    ((getFavorites ⟨html, recettes, .json (.arr F), write⟩).response
        = .json 404 (messageBody "No favorites found.") ↔ F = []) ∧
    (F ≠ [] →
      (getFavorites ⟨html, recettes, .json (.arr F), write⟩).response = .json 200 (.arr F)) ∧
    (∀ w : World, (getFavorites w).written = none ∧ w.after (getFavorites w) = w) := by
  refine ⟨?_, ?_, ?_⟩
  · cases F with
    | nil => simp [getFavorites, lengthIsZero]
    | cons x xs => simp [getFavorites, lengthIsZero]
  · intro hF
    cases F with
    | nil => exact absurd rfl hF
    | cons x xs => simp [getFavorites, lengthIsZero]
  · intro w
    have he : ∃ r, getFavorites w = ⟨r, [.readFavorites]⟩ := by
      unfold getFavorites
      cases w.favorites with
      | missing => exact ⟨_, rfl⟩
      | unreadable => exact ⟨_, rfl⟩
      | invalid => exact ⟨_, rfl⟩
      | json v =>
        cases hv : lengthIsZero v with
        | error e => simp only [hv]; exact ⟨_, rfl⟩
        | ok b => cases b <;> simp only [hv] <;> exact ⟨_, rfl⟩
    obtain ⟨r, hr⟩ := he
    rw [hr]
    exact ⟨rfl, rfl⟩

/-- C8 on the one-record favorites file of the tests. -/
theorem get_favorites_lists_witness :
    (getFavorites ⟨fun _ => .present none, .missing,
        .json (.arr [.obj [("id", .num (.int 1)), ("recetteFile", .str "file1.html")]]),
        .ok⟩).response
      = .json 200 (.arr [.obj [("id", .num (.int 1)), ("recetteFile", .str "file1.html")]]) :=
  (get_favorites_lists (fun _ => .present none) .missing .ok
    [.obj [("id", .num (.int 1)), ("recetteFile", .str "file1.html")]]).2.1 (by simp)

/-- C9. Without a `recette` query parameter `GET /search` answers 200 with the
parsed content of the recipe file when it holds valid JSON, 200 with `[]` when
the file is missing, and 500 when the file holds invalid JSON. -/
theorem search_lists_recettes (html : String → PathState) (favorites : FileState)
    (write : WriteResult) (v : JVal) :
    (getSearch ⟨html, .json v, favorites, write⟩ none).response = .json 200 v ∧
    (getSearch ⟨html, .json (.arr []), favorites, write⟩ none).response
      = .json 200 (.arr []) ∧
    (getSearch ⟨html, .missing, favorites, write⟩ none).response = .json 200 (.arr []) ∧
    (getSearch ⟨html, .missing, favorites, write⟩ none).response.status ≠ 500 ∧
    (getSearch ⟨html, .invalid, favorites, write⟩ none).response
      = .json 500 (errorBody "Error parsing JSON data.") :=
  ⟨rfl, rfl, rfl, by simp [getSearch, listRecettes, Response.status], rfl⟩

/-- C10. Favorite ids are not unique: from the empty favorites array the
successful calls add `a`, add `b`, remove `a`, add `c` leave two records with
id 2, the id of a new record being the array length plus one. -/
theorem favorite_ids_not_unique :
    (serveAll emptyFavorites
        [.postFavorite (some (.str "a.html")), .postFavorite (some (.str "b.html")),
          .deleteFavorite (some (.str "a.html")), .postFavorite (some (.str "c.html"))]).1
      = [.json 201 (messageBody "Favorite added successfully!"),
          .json 201 (messageBody "Favorite added successfully!"),
          .json 200 (messageBody "Favorite deleted successfully."),
          .json 201 (messageBody "Favorite added successfully!")] ∧
    (serveAll emptyFavorites
        [.postFavorite (some (.str "a.html")), .postFavorite (some (.str "b.html")),
          .deleteFavorite (some (.str "a.html")), .postFavorite (some (.str "c.html"))]).2.favorites
      = .json (.arr [.obj [("id", .num (.int 2)), ("recetteFile", .str "b.html")],
          .obj [("id", .num (.int 2)), ("recetteFile", .str "c.html")]]) ∧
    getProp (.obj [("id", .num (.int 2)), ("recetteFile", .str "b.html")]) "id"
      = getProp (.obj [("id", .num (.int 2)), ("recetteFile", .str "c.html")]) "id" ∧
    (∀ (favorites : List JVal) (name : String),
      getProp (newFavorite favorites name) "id"
        = .ok (some (.num (.int ((favorites.length : Int) + 1))))) :=
  ⟨rfl, rfl, rfl, fun _ _ => rfl⟩

/-- C1, at the failing input. From the favorites file `[]`, posting
`a.html` twice answers 201 both times and stores two records for `a.html`: the
duplicate test reads the property `filename`, which stored records lack. -/
theorem duplicate_favorite_accepted :
    (serveAll emptyFavorites
        [.postFavorite (some (.str "a.html")), .postFavorite (some (.str "a.html"))]).1
      = [.json 201 (messageBody "Favorite added successfully!"),
          .json 201 (messageBody "Favorite added successfully!")] ∧
    (serveAll emptyFavorites
        [.postFavorite (some (.str "a.html")), .postFavorite (some (.str "a.html"))]).2.favorites
      = .json (.arr [.obj [("id", .num (.int 1)), ("recetteFile", .str "a.html")],
          .obj [("id", .num (.int 2)), ("recetteFile", .str "a.html")]]) :=
  ⟨rfl, rfl⟩

/-- What `POST /favorites` returns once its duplicate scan completed without a
match: the outcome of the write. -/
theorem post_of_clean_scan (w : World) (name : String) (F : List JVal) (refusal : Option Nat)
    (hname : name ≠ "") (hdoc : pathState w name = .present refusal)
    (hfav : w.favorites = .json (.arr F))
    (hfind : find (propIs "filename" (.str name)) F = .ok none) :
    postFavorites w (some (.str name)) = saveAdded w name (F ++ [newFavorite F name]) := by
  simp [postFavorites, truthy, hname, addFavorite, hdoc, hfav, hfind]

/-- A 201 from `POST /favorites` means that the duplicate scan completed
without a match and that the write succeeded. -/
theorem post_created_inv (w : World) (name : String) (F : List JVal) (refusal : Option Nat)
    (hname : name ≠ "") (hdoc : pathState w name = .present refusal)
    (hfav : w.favorites = .json (.arr F))
    (h201 : (postFavorites w (some (.str name))).response.status = 201) :
    find (propIs "filename" (.str name)) F = .ok none ∧ w.write = .ok := by
  have hpost : postFavorites w (some (.str name)) = addFavorite w name := by
    simp [postFavorites, truthy, hname]
  cases hf : find (propIs "filename" (.str name)) F with
  | error e => simp [hpost, addFavorite, hdoc, hfav, hf, Response.status] at h201
  | ok found =>
    cases found with
    | some r => simp [hpost, addFavorite, hdoc, hfav, hf, Response.status] at h201
    | none =>
      refine ⟨rfl, ?_⟩
      cases hw : w.write with
      | ok => rfl
      | enoent => simp [hpost, addFavorite, hdoc, hfav, hf, saveAdded, hw, Response.status] at h201
      | failure left =>
        simp [hpost, addFavorite, hdoc, hfav, hf, saveAdded, hw, Response.status] at h201

/-- Repeating a successful `POST /favorites`: whenever a first request for
`name` on the array `F` answers 201, the same request repeated answers 201
again and the file ends with two records for `name`. -/
theorem second_post_never_conflicts (w : World) (name : String) (F : List JVal)
    (refusal : Option Nat)
    (hname : name ≠ "") (hdoc : pathState w name = .present refusal)
    (hfav : w.favorites = .json (.arr F))
    (hfirst : (postFavorites w (some (.str name))).response.status = 201) :
    (postFavorites (w.after (postFavorites w (some (.str name)))) (some (.str name))).response
      = .json 201 (messageBody "Favorite added successfully!") ∧
    (postFavorites (w.after (postFavorites w (some (.str name)))) (some (.str name))).written
      = some (.arr (F ++ [newFavorite F name] ++
          [newFavorite (F ++ [newFavorite F name]) name])) := by
  obtain ⟨hfind, hwrite⟩ := post_created_inv w name F refusal hname hdoc hfav hfirst
  have hout := post_of_clean_scan w name F refusal hname hdoc hfav hfind
  have hafter : w.after (postFavorites w (some (.str name)))
      = { w with favorites := .json (.arr (F ++ [newFavorite F name])) } := by
    rw [hout]
    simp [saveAdded, hwrite, World.after, applyEffects]
  have hfind2 : find (propIs "filename" (.str name)) (F ++ [newFavorite F name]) = .ok none := by
    rw [find_append_of_none _ F _ hfind]
    simp [find, newFavorite_has_no_filename]
  rw [hafter]
  have hout2 := post_of_clean_scan
    { w with favorites := .json (.arr (F ++ [newFavorite F name])) } name
    (F ++ [newFavorite F name]) refusal hname hdoc rfl hfind2
  rw [hout2]
  simp [saveAdded, hwrite, Outcome.written, lastWrite]

/-- C2. For a non-empty `recetteFile` whose document exists and a favorites
array `F`: when the duplicate test completes and finds nothing (no record is
`null`, none has `filename` equal to `recetteFile`) and the write succeeds,
`POST /favorites` answers 201; and whenever it answers 201 it has written back
`F` followed by `{id: length(F) + 1, recetteFile}`, the records of `F` keeping
their positions and the new array having one record more. -/
theorem post_appends_record (w : World) (name : String) (F : List JVal) (refusal : Option Nat)
    (hname : name ≠ "") (hdoc : pathState w name = .present refusal)
    (hfav : w.favorites = .json (.arr F)) :
    ((∀ r ∈ F, r ≠ .null ∧ getProp r "filename" ≠ .ok (some (.str name))) →
      w.write = .ok →
      (postFavorites w (some (.str name))).response
        = .json 201 (messageBody "Favorite added successfully!")) ∧
    ((postFavorites w (some (.str name))).response.status = 201 →
      (postFavorites w (some (.str name))).response
        = .json 201 (messageBody "Favorite added successfully!") ∧
      (postFavorites w (some (.str name))).written
        = some (.arr (F ++ [.obj [("id", .num (.int ((F.length : Int) + 1))),
            ("recetteFile", .str name)]])) ∧
      (w.after (postFavorites w (some (.str name)))).favorites
        = .json (.arr (F ++ [.obj [("id", .num (.int ((F.length : Int) + 1))),
            ("recetteFile", .str name)]]))) ∧
    (F ++ [JVal.obj [("id", .num (.int ((F.length : Int) + 1))),
        ("recetteFile", .str name)]]).length = F.length + 1 ∧
    (∀ i, i < F.length →
      (F ++ [JVal.obj [("id", .num (.int ((F.length : Int) + 1))),
          ("recetteFile", .str name)]])[i]? = F[i]?) := by
  refine ⟨?_, ?_, by simp, ?_⟩
  · intro hscan hwrite
    have hfind : find (propIs "filename" (.str name)) F = .ok none := by
      apply find_of_all_false
      intro r hr
      obtain ⟨hnull, hprop⟩ := hscan r hr
      cases r with
      | null => exact absurd rfl hnull
      | obj fields =>
        have hne : fields.lookup "filename" ≠ some (.str name) := by
          intro h
          exact hprop (by simp [getProp, h])
        have hs : strictEq (fields.lookup "filename") (.str name) = false := by
          cases hb : strictEq (fields.lookup "filename") (.str name) with
          | false => rfl
          | true => exact absurd ((strictEq_str_iff _ _).mp hb) hne
        simp [propIs, getProp, hs]
      | _ => rfl
    rw [post_of_clean_scan w name F refusal hname hdoc hfav hfind]
    simp [saveAdded, hwrite]
  · intro h201
    obtain ⟨hfind, hwrite⟩ := post_created_inv w name F refusal hname hdoc hfav h201
    rw [post_of_clean_scan w name F refusal hname hdoc hfav hfind]
    simp [saveAdded, hwrite, Outcome.written, lastWrite, World.after, applyEffects, newFavorite]
  · intro i hi
    exact List.getElem?_append_left hi

/-- C2 on the favorites array `[{id: 1, recetteFile: 'file1.html'}]`. -/
theorem post_appends_record_witness :
    (postFavorites ⟨fun _ => .present none, .missing,
        .json (.arr [.obj [("id", .num (.int 1)), ("recetteFile", .str "file1.html")]]), .ok⟩
        (some (.str "b.html"))).written
      = some (.arr ([.obj [("id", .num (.int 1)), ("recetteFile", .str "file1.html")]] ++
          [.obj [("id", .num (.int (((1 : Nat) : Int) + 1))), ("recetteFile", .str "b.html")]])) :=
  ((post_appends_record ⟨fun _ => .present none, .missing,
      .json (.arr [.obj [("id", .num (.int 1)), ("recetteFile", .str "file1.html")]]), .ok⟩
    "b.html" [.obj [("id", .num (.int 1)), ("recetteFile", .str "file1.html")]] none
    (by decide) rfl rfl).2.1 rfl).2.1

/-- C3 as stated fails twice: on the favorites array `[null]` the handler
answers 500 where the reference answers 404, and on
`[{recetteFile: 'a.html'}]` with a favorites file that cannot be written it
answers 500 where the reference answers 200. -/
theorem delete_null_record_diverges :
    (deleteFavorites ⟨fun _ => .present none, .json (.arr []), .json (.arr [.null]), .ok⟩
        (some (.str "a.html"))).response
      = .json 500 (errorBody "An error occurred while deleting the favorite.") ∧
    deleteReference [.null] "a.html" = (.json 404 (errorBody "Favorite not found."), none) ∧
    (deleteFavorites ⟨fun _ => .present none, .json (.arr []),
        .json (.arr [.obj [("recetteFile", .str "a.html")]]),
        .failure (.json (.arr [.obj [("recetteFile", .str "a.html")]]))⟩
        (some (.str "a.html"))).response
      = .json 500 (errorBody "An error occurred while deleting the favorite.") ∧
    deleteReference [.obj [("recetteFile", .str "a.html")]] "a.html"
      = (.json 200 (messageBody "Favorite deleted successfully."), some (.arr [])) :=
  ⟨rfl, rfl, rfl, rfl⟩

/-- C3, amended. For a non-empty `filename` and a favorites array `F` in which
no `null` element comes before the first record whose `recetteFile` equals
`filename`: without such a record `DELETE /favorites` answers 404 and writes
nothing, as the reference; with one, and a write that succeeds, it answers 200
and writes `F` without the first such record, as the reference; with one, and
a write that fails, it answers 500. When a `null` element does come first the
handler answers 500 and writes nothing. -/
theorem delete_matches_reference (html : String → PathState) (recettes : FileState)
    (write : WriteResult) (name : String) (F : List JVal) (hname : name ≠ "") :
    ((∀ r ∈ F.takeWhile (fun r => !hasRecetteFile name r), r ≠ .null) →
      (F.any (hasRecetteFile name) = false ∨ write = .ok) →
      ((deleteFavorites ⟨html, recettes, .json (.arr F), write⟩ (some (.str name))).response,
        (deleteFavorites ⟨html, recettes, .json (.arr F), write⟩ (some (.str name))).written)
        = deleteReference F name) ∧
    ((∀ r ∈ F.takeWhile (fun r => !hasRecetteFile name r), r ≠ .null) →
      F.any (hasRecetteFile name) = true → write ≠ .ok →
      (deleteFavorites ⟨html, recettes, .json (.arr F), write⟩ (some (.str name))).response
        = .json 500 (errorBody "An error occurred while deleting the favorite.") ∧
      (deleteFavorites ⟨html, recettes, .json (.arr F), write⟩ (some (.str name))).written
        = none) ∧
    ((∃ r ∈ F.takeWhile (fun r => !hasRecetteFile name r), r = .null) →
      (deleteFavorites ⟨html, recettes, .json (.arr F), write⟩ (some (.str name))).response
        = .json 500 (errorBody "An error occurred while deleting the favorite.") ∧
      (deleteFavorites ⟨html, recettes, .json (.arr F), write⟩ (some (.str name))).written
        = none) := by
  refine ⟨?_, ?_, ?_⟩
  · intro h hw
    rcases findIndex_clean name F h with ⟨h1, h2⟩ | ⟨i, h1, h2, h3⟩
    · simp [deleteFavorites, truthy, hname, removeFavorite, h1, deleteReference, h2,
        Outcome.written, lastWrite]
    · rcases hw with hw | hw
      · rw [h2] at hw
        exact absurd hw (by decide)
      · subst hw
        simp [deleteFavorites, truthy, hname, removeFavorite, h1, saveRemoved, deleteReference,
          h2, h3, Outcome.written, lastWrite]
  · intro h hany hw
    rcases findIndex_clean name F h with ⟨h1, h2⟩ | ⟨i, h1, h2, h3⟩
    · rw [h2] at hany
      exact absurd hany (by decide)
    · cases write with
      | ok => exact absurd rfl hw
      | enoent =>
        simp [deleteFavorites, truthy, hname, removeFavorite, h1, saveRemoved,
          Outcome.written, lastWrite]
      | failure left =>
        simp [deleteFavorites, truthy, hname, removeFavorite, h1, saveRemoved,
          Outcome.written, lastWrite]
  · intro h
    rcases findIndex_throws name F h with ⟨e, he⟩
    simp [deleteFavorites, truthy, hname, removeFavorite, he, Outcome.written, lastWrite]

/-- C3, amended, on `[{recetteFile: 'a.html'}, null, {recetteFile: 'a.html'}]`:
the first record is removed, the later ones are kept. -/
theorem delete_matches_reference_witness :
    ((deleteFavorites ⟨fun _ => .present none, .missing,
          .json (.arr [.obj [("recetteFile", .str "a.html")], .null,
            .obj [("recetteFile", .str "a.html")]]), .ok⟩ (some (.str "a.html"))).response,
      (deleteFavorites ⟨fun _ => .present none, .missing,
          .json (.arr [.obj [("recetteFile", .str "a.html")], .null,
            .obj [("recetteFile", .str "a.html")]]), .ok⟩ (some (.str "a.html"))).written)
      = deleteReference [.obj [("recetteFile", .str "a.html")], .null,
          .obj [("recetteFile", .str "a.html")]] "a.html" :=
  (delete_matches_reference (fun _ => .present none) .missing .ok "a.html"
    [.obj [("recetteFile", .str "a.html")], .null, .obj [("recetteFile", .str "a.html")]]
    (by decide)).1 (by simp [List.takeWhile, hasRecetteFile]) (Or.inr rfl)

/-- C5 as stated fails: the id `9007199254740993` has the numeric value
9007199254740993, yet `parseInt` gives the double 9007199254740992 and
`GET /recette/9007199254740993` finds the record whose id is 9007199254740992. -/
theorem large_id_rounded :
    digitsValue "9007199254740993".data = 9007199254740993 ∧
    parseInt "9007199254740993" = some (.int 9007199254740992) ∧
    (getRecette asciiLowerCase ⟨fun _ => .missing,
        .json (.arr [.obj [("id", .num (.int 9007199254740992)), ("recette", .str "Soupe")]]),
        .missing, .ok⟩ "9007199254740993").response
      = .send 404 "HTML file not found for the provided document." :=
  ⟨rfl, rfl, rfl⟩

/-- C5, amended. `GET /recette/:id` answers 400 `Invalid recette ID.` exactly
when `:id`, after leading white space and an optional sign, does not begin
with a decimal digit; it then makes no file-system call, in every world. An id
`ws ++ sign ++ digits ++ rest` is looked up by the Number value of its signed
digits, which is their exact value below `2 ^ 53` and the nearest double
otherwise; so `12abc` is looked up as 12, and `9007199254740993` as
9007199254740992. -/
theorem invalid_id_rejected (toLowerCase : List Char → List Char) (w : World) (id : String) :
    ((getRecette toLowerCase w id).response = .send 400 "Invalid recette ID." ↔
      beginsWithDigits id = false) ∧
    (beginsWithDigits id = false →
      getRecette toLowerCase w id = ⟨.send 400 "Invalid recette ID.", []⟩) ∧
    (∀ (ws sg ds rest : List Char) (negative : Bool),
      id = String.mk (ws ++ sg ++ ds ++ rest) →
      (∀ x ∈ ws, isWhiteSpace x = true) →
      ((sg = [] ∧ negative = false) ∨ (sg = ['+'] ∧ negative = false) ∨
        (sg = ['-'] ∧ negative = true)) →
      ds ≠ [] → (∀ x ∈ ds, isDigit x = true) →
      (∀ c, rest.head? = some c → isDigit c = false) →
      getRecette toLowerCase w id
          = recetteById toLowerCase w (toNumber negative (digitsValue ds)) ∧
        (digitsValue ds < 2 ^ 53 →
          toNumber negative (digitsValue ds)
            = .int (if negative then -(digitsValue ds : Int) else (digitsValue ds : Int)))) ∧
    getRecette toLowerCase w "abc" = ⟨.send 400 "Invalid recette ID.", []⟩ ∧
    getRecette toLowerCase w "invalid" = ⟨.send 400 "Invalid recette ID.", []⟩ ∧
    getRecette toLowerCase w "12abc" = recetteById toLowerCase w (.int 12) ∧
    getRecette toLowerCase w "9007199254740993"
      = recetteById toLowerCase w (.int 9007199254740992) := by
  refine ⟨?_, ?_, ?_, ?_, ?_, ?_, ?_⟩
  · rw [← parseInt_eq_none_iff]
    unfold getRecette
    cases h : parseInt id with
    | none => simp
    | some n => simpa using recetteById_ne_400 toLowerCase w n
  · intro h
    rw [← parseInt_eq_none_iff] at h
    simp [getRecette, h]
  · intro ws sg ds rest negative hid hws hsg hne hds hrest
    subst hid
    refine ⟨?_, toNumber_exact negative (digitsValue ds)⟩
    simp only [getRecette, parseInt_digits ws ds rest sg negative hws hsg hne hds hrest]
  · rfl
  · rfl
  · rfl
  · rfl

/-- C5, amended, on the id `" -12abc"`, looked up as -12. -/
theorem invalid_id_rejected_witness :
    getRecette asciiLowerCase emptyFavorites " -12abc"
      = recetteById asciiLowerCase emptyFavorites (toNumber true (digitsValue ['1', '2'])) ∧
    toNumber true (digitsValue ['1', '2']) = .int (-12) :=
  ⟨((invalid_id_rejected asciiLowerCase emptyFavorites " -12abc").2.2.1
      [' '] ['-'] ['1', '2'] ['a', 'b', 'c'] true rfl (by decide)
      (Or.inr (Or.inr ⟨rfl, rfl⟩)) (by decide) (by decide) (by decide)).1, rfl⟩

/-- C6 as stated fails: on the recipe array `[null]` no record has id 1, yet
`GET /recette/1` answers 500, not 404 `Document not found.`. -/
theorem recette_null_record_diverges :
    (getRecette asciiLowerCase ⟨fun _ => .present none, .json (.arr [.null]), .missing, .ok⟩
        "1").response
      = .send 500 "Internal server error." ∧
    [JVal.null].any (hasId (.int 1)) = false :=
  ⟨rfl, rfl⟩

/-- C6, amended. For an id that `parseInt` turns into the number `x` and a
recipe array `F` in which no `null` element comes before the first record
whose `id` equals `x`, `GET /recette/:id` answers 404 `Document not found.`
exactly when no record of `F` has `id` equal to `x`, and otherwise derives the
document from the first record of `F` whose `id` equals `x`; when a `null`
element does come first the handler answers 500. -/
theorem recette_lookup_first_match (toLowerCase : List Char → List Char)
    (html : String → PathState) (favorites : FileState) (write : WriteResult)
    (F : List JVal) (id : String) (x : JNum) (hid : parseInt id = some x) :
    ((∀ r ∈ F.takeWhile (fun r => !hasId x r), r ≠ .null) →
      ((getRecette toLowerCase ⟨html, .json (.arr F), favorites, write⟩ id).response
          = .send 404 "Document not found." ↔ ∀ r ∈ F, hasId x r = false) ∧
      (∀ r, F.find? (hasId x) = some r →
        getRecette toLowerCase ⟨html, .json (.arr F), favorites, write⟩ id
          = serveRecette toLowerCase ⟨html, .json (.arr F), favorites, write⟩ r)) ∧
    ((∃ r ∈ F.takeWhile (fun r => !hasId x r), r = .null) →
      (getRecette toLowerCase ⟨html, .json (.arr F), favorites, write⟩ id).response
        = .send 500 "Internal server error.") := by
  constructor
  · intro h
    have hfind := find_clean x F h
    have hserve : ∀ r, F.find? (hasId x) = some r →
        getRecette toLowerCase ⟨html, .json (.arr F), favorites, write⟩ id
          = serveRecette toLowerCase ⟨html, .json (.arr F), favorites, write⟩ r := by
      intro r hr
      have ht : truthy (some r) = true := hasId_truthy x r (List.find?_some hr)
      simp [getRecette, hid, recetteById, hfind, hr, ht]
    refine ⟨?_, hserve⟩
    cases hr : F.find? (hasId x) with
    | none =>
      have hall : ∀ r ∈ F, hasId x r = false := by
        intro r hmem
        have := List.find?_eq_none.mp hr r hmem
        simpa using this
      simp [getRecette, hid, recetteById, hfind, hr]
      exact hall
    | some r =>
      have hmem : r ∈ F := List.mem_of_find?_eq_some hr
      have hq : hasId x r = true := List.find?_some hr
      rw [hserve r hr]
      constructor
      · intro hresp
        exact absurd hresp (serveRecette_ne toLowerCase _ r _ (by decide) (by decide) 404)
      · intro hall
        rw [hall r hmem] at hq
        exact absurd hq (by decide)
  · intro h
    rcases find_throws x F h with ⟨e, he⟩
    simp [getRecette, hid, recetteById, he]

/-- C6, amended, on the id `9007199254740993`, which `parseInt` turns into the
double 9007199254740992, and the recipes
`[{id: 9007199254740992, recette: 'Soupe'}, {id: 9007199254740992, recette: 'Autre'}]`:
the first record is the one served. -/
theorem recette_lookup_first_match_witness :
    getRecette asciiLowerCase ⟨fun _ => .missing,
        .json (.arr [.obj [("id", .num (.int 9007199254740992)), ("recette", .str "Soupe")],
          .obj [("id", .num (.int 9007199254740992)), ("recette", .str "Autre")]]),
        .missing, .ok⟩ "9007199254740993"
      = serveRecette asciiLowerCase ⟨fun _ => .missing,
        .json (.arr [.obj [("id", .num (.int 9007199254740992)), ("recette", .str "Soupe")],
          .obj [("id", .num (.int 9007199254740992)), ("recette", .str "Autre")]]),
        .missing, .ok⟩
        (.obj [("id", .num (.int 9007199254740992)), ("recette", .str "Soupe")]) :=
  ((recette_lookup_first_match asciiLowerCase (fun _ => .missing) .missing .ok
    [.obj [("id", .num (.int 9007199254740992)), ("recette", .str "Soupe")],
      .obj [("id", .num (.int 9007199254740992)), ("recette", .str "Autre")]]
    "9007199254740993" (.int 9007199254740992) rfl).1
    (by simp [List.takeWhile, hasId, List.lookup])).2
    (.obj [("id", .num (.int 9007199254740992)), ("recette", .str "Soupe")]) rfl

/-- C7 as stated fails: for the recipe name `.Hidden` the derived file is
`.hidden.html`; with that file present and readable `GET /recette/1` does not
serve it, `send` refuses the dot-file and Express answers 404. -/
theorem recette_dot_file_refused :
    htmlName asciiLowerCase ".Hidden" = ".hidden.html" ∧
    (getRecette asciiLowerCase ⟨fun _ => .present none,
        .json (.arr [.obj [("id", .num (.int 1)), ("recette", .str ".Hidden")]]),
        .missing, .ok⟩ "1").response = .refused 404 :=
  ⟨by decide, rfl⟩

/-- C7, amended. For a matched recipe whose `recette` name is a string, the
document looked for is named by the name with each maximal run of white space
replaced by one underscore, lowercased, followed by `.html`. If `fs.access`
rejects that path the answer is 404
`HTML file not found for the provided document.`; otherwise the file is served
as a download when its name does not begin with a dot and `send` does not
refuse it, and Express answers 404 when its name begins with a dot. For a name
of ASCII characters, on which `toLowerCase` is `asciiLowerCase`, lowercasing
before or after the replacement gives the same name, and that name has no
white space and no uppercase letter. -/
theorem recette_document_name (toLowerCase : List Char → List Char) (w : World)
    (recettes : List JVal) (id : String) (x : JNum) (r : JVal) (name : String)
    (hfile : w.recettes = .json (.arr recettes)) (hid : parseInt id = some x)
    (hfound : find (propIs "id" (.num x)) recettes = .ok (some r))
    (hname : getProp r "recette" = .ok (some (.str name))) :
    htmlName toLowerCase name
      = String.mk (toLowerCase (underscoreRuns name.data)) ++ ".html" ∧
    ((pathState w (htmlName toLowerCase name) = .missing ∨
        pathState w (htmlName toLowerCase name) = .blocked) →
      (getRecette toLowerCase w id).response
        = .send 404 "HTML file not found for the provided document.") ∧
    (pathState w (htmlName toLowerCase name) = .present none →
      isDotFile (htmlName toLowerCase name) = false →
      (getRecette toLowerCase w id).response = .download (htmlName toLowerCase name)) ∧
    (∀ status, pathState w (htmlName toLowerCase name) = .present (some status) →
      isDotFile (htmlName toLowerCase name) = false →
      (getRecette toLowerCase w id).response = .refused status) ∧
    (∀ refusal, pathState w (htmlName toLowerCase name) = .present refusal →
      isDotFile (htmlName toLowerCase name) = true →
      (getRecette toLowerCase w id).response = .refused 404) ∧
    ((∀ cs, (∀ c ∈ cs, isAscii c = true) → toLowerCase cs = asciiLowerCase cs) →
      (∀ c ∈ name.data, isAscii c = true) →
      htmlName toLowerCase name
        = String.mk (underscoreRuns (toLowerCase name.data)) ++ ".html" ∧
      toLowerCase (replaceWs name.data) = replaceWs (toLowerCase name.data) ∧
      (∀ c ∈ toLowerCase (replaceWs name.data),
        isWhiteSpace c = false ∧ isAsciiUpper c = false)) := by
  have htruthy : truthy (some r) = true := by
    cases r <;> simp_all [getProp, truthy]
  have hget : getRecette toLowerCase w id = serveRecette toLowerCase w r := by
    simp [getRecette, hid, recetteById, hfile, hfound, htruthy]
  refine ⟨?_, ?_, ?_, ?_, ?_, ?_⟩
  · simp [htmlName, replaceWs_eq_underscoreRuns]
  · rintro (h | h) <;> simp [hget, serveRecette, hname, h]
  · intro h hdot
    simp [hget, serveRecette, hname, h, deliver, hdot]
  · intro status h hdot
    simp [hget, serveRecette, hname, h, deliver, hdot]
  · intro refusal h hdot
    simp [hget, serveRecette, hname, h, deliver, hdot]
  · intro hlaw hascii
    have hkeep := replaceWsFrom_keeps (fun c => isAscii c = true) (by decide) false
      name.data hascii
    have h1 : toLowerCase (replaceWs name.data) = (replaceWs name.data).map asciiLower :=
      hlaw (replaceWs name.data) (fun c hc => (hkeep c hc).1)
    have h2 : toLowerCase name.data = name.data.map asciiLower := hlaw name.data hascii
    have hcomm : toLowerCase (replaceWs name.data) = replaceWs (toLowerCase name.data) := by
      rw [h1, h2]
      exact replaceWsFrom_map asciiLower asciiLower_space (by decide) false name.data
    refine ⟨?_, hcomm, ?_⟩
    · simp only [htmlName]
      rw [hcomm, replaceWs_eq_underscoreRuns]
    · intro c hc
      rw [h1] at hc
      obtain ⟨d, hd, rfl⟩ := List.mem_map.mp hc
      exact ⟨by rw [asciiLower_space]; exact (hkeep d hd).2, asciiLower_not_upper d⟩

/-- C7, amended, on the recipes `[{id: 1, recette: 'Soupe Du  Jour'}]` with no
`soupe_du_jour.html` in the document directory. -/
theorem recette_document_name_witness :
    htmlName asciiLowerCase "Soupe Du  Jour" = "soupe_du_jour.html" ∧
    (getRecette asciiLowerCase
        ⟨fun p => if p = "soupe_du_jour.html" then .missing else .present none,
          .json (.arr [.obj [("id", .num (.int 1)), ("recette", .str "Soupe Du  Jour")]]),
          .missing, .ok⟩ "1").response
      = .send 404 "HTML file not found for the provided document." :=
  ⟨by decide,
    (recette_document_name asciiLowerCase
      ⟨fun p => if p = "soupe_du_jour.html" then .missing else .present none,
        .json (.arr [.obj [("id", .num (.int 1)), ("recette", .str "Soupe Du  Jour")]]),
        .missing, .ok⟩
      [.obj [("id", .num (.int 1)), ("recette", .str "Soupe Du  Jour")]] "1" (.int 1)
      (.obj [("id", .num (.int 1)), ("recette", .str "Soupe Du  Jour")]) "Soupe Du  Jour"
      rfl rfl rfl rfl).2.1 (Or.inl rfl)⟩

end JsauApi
